import Mathlib

/-!
Shallow embedding of the client-side publish/subscribe dispatcher of
`openmdao.gui/src/openmdao/gui/static/js/openmdao/Model.js`.

The embedded core consists of:
* the subscriber registry `subscribers` (a JS object mapping topic strings to
  arrays of callbacks), modelled as an insertion-ordered association list;
* the two channel-established flags `outstream_socket` and `publisher_socket`;
* `addListener(topic, callback)` (Model.js lines 89-107), which appends the
  callback and lazily opens the outstream and publisher websockets on the
  first registration that warrants it;
* the outstream message handler `handle_output` (lines 48-58);
* the publisher message handler `handle_message` (lines 64-80), which rewrites
  the envelope topic element by prepending the literal prefix `"prob."` before
  the registry lookup;
* `updateListeners` (lines 113-130), the legacy broadcast.

Callbacks are opaque to the dispatcher: a registered entry is either a
callable function, identified by a numeric id, or a non-callable value
(`typeof callbacks[i] === "function"` fails).  The semantic behaviour of a
callable is summarised by an environment `throws : Nat → Bool` saying whether
invoking it raises an exception; the JS fan-out loops contain no try/catch,
so an exception propagates out of the loop.  Invocations are recorded as a
trace; `debug.info` / `debug.error` logging has no dispatch effect and is not
modelled.  Channel opening (`open_websocket`, lines 17-43) performs a one-shot
directory lookup (`jQuery.ajax GET "outstream"` resp. `"pubstream"`); we
record each such open request as an event.
-/

namespace ModelJS

/-- A registered subscriber entry: a callable function (identified by `id`) or
a non-callable value, which `typeof callbacks[i] === "function"` rejects. -/
inductive Entry where
  | func (id : Nat)
  | nonfunc (v : Nat)
deriving DecidableEq

/-- The ids of the callable entries of a list, in order. -/
def funcIds (l : List Entry) : List Nat :=
  l.filterMap fun e =>
    match e with
    | Entry.func id => some id
    | Entry.nonfunc _ => none

/-- The fan-out loop shared (textually identical modulo the guard around it)
by `handle_output` (Model.js 50-57), `handle_message` (71-78) and
`updateListeners` (119-127):

    for (i = 0; i < callbacks.length; i++) {
        if (typeof callbacks[i] === "function") { callbacks[i](...); }
        else { debug.error(...); }
    }

Returns the trace of invoked callback ids together with a flag telling
whether an exception escaped the loop (there is no try/catch, so a throwing
callback aborts the iteration). A non-callable entry is skipped (the `else`
branch only logs) and the loop continues. -/
def runCallbacks (throws : Nat → Bool) : List Entry → List Nat × Bool
  | [] => ([], false)
  | Entry.func id :: rest =>
    if throws id then
      ([id], true)
    else
      let r := runCallbacks throws rest
      (id :: r.1, r.2)
  | Entry.nonfunc _ :: rest => runCallbacks throws rest

/-- The fixed output-stream topic constant (`outstream_topic = "outstream"`,
Model.js line 11). -/
def outstream_topic : String := "outstream"

/-- The private state captured by the `openmdao.Model` closure
(Model.js lines 11-14): the subscriber registry and the two
channel-established flags, all initially empty/false. -/
structure ModelState where
  subscribers : List (String × List Entry)
  outstream_socket : Bool
  publisher_socket : Bool
deriving DecidableEq

/-- The state right after `openmdao.Model()` runs (Model.js lines 11-14). -/
def initState : ModelState :=
  { subscribers := [], outstream_socket := false, publisher_socket := false }

/-- Registry lookup `subscribers[topic]` / the `topic in subscribers`
membership test (the registry is used as a plain string-keyed dictionary). -/
def lookupT (t : String) : List (String × List Entry) → Option (List Entry)
  | [] => none
  | (k, v) :: rest => if k = t then some v else lookupT t rest

/-- `subscribers[topic].push(callback)` (Model.js line 92): append to the
list stored under `topic`, leaving every other key untouched. -/
def addSub (t : String) (e : Entry) : List (String × List Entry) → List (String × List Entry)
  | [] => []
  | (k, v) :: rest => if k = t then (k, v ++ [e]) :: rest else (k, v) :: addSub t e rest

/-- A channel-open request: `open_websocket(url, handler)` issues a one-shot
directory lookup `GET url` with `url` = `"outstream"` (from
`open_outstream_socket`, line 59) or `"pubstream"` (from
`open_publisher_socket`, line 81). -/
inductive OpenEvent where
  | outstream
  | pubstream
deriving DecidableEq

/-- `this.addListener = function(topic, callback)` (Model.js 89-107):

    if (topic in subscribers) { subscribers[topic].push(callback); }
    else {
        subscribers[topic] = [ callback ]
        if (topic === outstream_topic && !outstream_socket) {
            outstream_socket = true;
            open_outstream_socket(outstream_topic);
        }
        if (!publisher_socket) {
            publisher_socket = true;
            open_publisher_socket();
        }
    }

Returns the new state together with the channel-open events issued. -/
def addListener (s : ModelState) (topic : String) (cb : Entry) :
    ModelState × List OpenEvent :=
  match lookupT topic s.subscribers with
  | some _ => ({ s with subscribers := addSub topic cb s.subscribers }, [])
  | none =>
    let s1 : ModelState := { s with subscribers := s.subscribers ++ [(topic, [cb])] }
    let p1 : ModelState × List OpenEvent :=
      if topic = outstream_topic ∧ s1.outstream_socket = false then
        ({ s1 with outstream_socket := true }, [OpenEvent.outstream])
      else
        (s1, [])
    if p1.1.publisher_socket = false then
      ({ p1.1 with publisher_socket := true }, p1.2 ++ [OpenEvent.pubstream])
    else
      p1

/-- The value passed to a callback at invocation time. -/
inductive Payload where
  | outData (d : String)
  | envelope (topic : String) (fields : List String)
deriving DecidableEq

/-- One recorded callback invocation: the registry topic whose list the
callback was taken from, the callback id, and the argument it was called
with (`none` when the callback is called with no argument). -/
structure Invocation where
  topic : String
  cb : Nat
  payload : Option Payload
deriving DecidableEq

/-- `handle_output(data)` (Model.js 48-58): looks up
`subscribers[outstream_topic]` WITHOUT an existence check — if the key is
missing the JS `callbacks.length` access faults on `undefined`, modelled as
`none` — then fans `data` out to the callbacks. -/
def handle_output (throws : Nat → Bool) (s : ModelState) (data : String) :
    Option (List Invocation × Bool) :=
  match lookupT outstream_topic s.subscribers with
  | none => none
  | some callbacks =>
    let r := runCallbacks throws callbacks
    some (r.1.map (fun id => ⟨outstream_topic, id, some (Payload.outData data)⟩), r.2)

/-- `handle_message(message)` (Model.js 64-80): the envelope topic element
is rewritten in place, `message[0] = "prob."+message[0]`, then
`subscribers[message[0]]` is looked up; the `if (callbacks)` guard makes a
missing key a silent drop; otherwise the (mutated) envelope is fanned out. -/
def handle_message (throws : Nat → Bool) (s : ModelState)
    (rawTopic : String) (fields : List String) : List Invocation × Bool :=
  let topic := "prob." ++ rawTopic
  match lookupT topic s.subscribers with
  | none => ([], false)
  | some callbacks =>
    let r := runCallbacks throws callbacks
    (r.1.map (fun id => ⟨topic, id, some (Payload.envelope topic fields)⟩), r.2)

/-- The `for (topic in subscribers)` loop of `updateListeners`
(Model.js 115-129): every topic except `outstream_topic` is fanned out with
no argument; an exception escaping one inner loop aborts the whole
iteration (no try/catch anywhere). -/
def updateLoop (throws : Nat → Bool) : List (String × List Entry) → List Invocation × Bool
  | [] => ([], false)
  | (t, callbacks) :: rest =>
    if t = outstream_topic then
      updateLoop throws rest
    else
      let r := runCallbacks throws callbacks
      let invs := r.1.map fun id => Invocation.mk t id none
      if r.2 then
        (invs, true)
      else
        let r2 := updateLoop throws rest
        (invs ++ r2.1, r2.2)

/-- `this.updateListeners = function()` (Model.js 113-130). -/
def updateListeners (throws : Nat → Bool) (s : ModelState) : List Invocation × Bool :=
  updateLoop throws s.subscribers

/-- The operations a client or the environment can perform on the dispatcher:
a registration, a legacy broadcast, or an inbound message on either channel.
Only `addListener` mutates the state or can issue a channel-open request;
the other operations only read the registry. -/
inductive Op where
  | add (topic : String) (cb : Entry)
  | update
  | outMsg (data : String)
  | pubMsg (rawTopic : String) (fields : List String)

/-- One step of the dispatcher: the successor state and the channel-open
events issued during the step. -/
def step (s : ModelState) : Op → ModelState × List OpenEvent
  | Op.add t cb => addListener s t cb
  | Op.update => (s, [])
  | Op.outMsg _ => (s, [])
  | Op.pubMsg _ _ => (s, [])

/-- Run a sequence of operations, accumulating the channel-open events. -/
def run (s : ModelState) : List Op → ModelState × List OpenEvent
  | [] => (s, [])
  | op :: rest =>
    let p := step s op
    let q := run p.1 rest
    (q.1, p.2 ++ q.2)

/-- Whether an operation is a registration under topic `T`. -/
def isAddOf (T : String) : Op → Bool
  | Op.add t _ => t == T
  | _ => false

/-- Whether an operation is a registration at all. -/
def isAdd : Op → Bool
  | Op.add _ _ => true
  | _ => false

/-- The flag/registry invariant maintained by the dispatcher: the
outstream-established flag is set exactly when the registry holds an entry
for the output topic, and the publisher-established flag is set exactly when
the registry is non-empty. -/
def FlagsInv (s : ModelState) : Prop :=
  (s.outstream_socket = true ↔ (lookupT outstream_topic s.subscribers).isSome = true)
  ∧ (s.publisher_socket = true ↔ s.subscribers ≠ [])

end ModelJS

namespace ModelJS

-- sanity checks (removed aids while developing)
example :
    (runCallbacks (fun _ => false) [Entry.func 1, Entry.nonfunc 7, Entry.func 2]).1
      = [1, 2] := by decide

example :
    (run initState [Op.add "outstream" (Entry.func 0)]).2
      = [OpenEvent.outstream, OpenEvent.pubstream] := by decide

example :
    (run initState [Op.add "a" (Entry.func 0), Op.add "b" (Entry.func 1)]).2
      = [OpenEvent.pubstream] := by decide

example :
    (handle_message (fun _ => false)
      { subscribers := [("prob.foo", [Entry.func 3]), ("foo", [Entry.func 4])],
        outstream_socket := false, publisher_socket := true } "foo" ["x"]).1
      = [⟨"prob.foo", 3, some (Payload.envelope "prob.foo" ["x"])⟩] := by decide

/-! ### Helper lemmas about the fan-out loop -/

theorem funcIds_nil : funcIds [] = [] := rfl

theorem funcIds_cons_func (id : Nat) (l : List Entry) :
    funcIds (Entry.func id :: l) = id :: funcIds l := rfl

theorem funcIds_cons_nonfunc (v : Nat) (l : List Entry) :
    funcIds (Entry.nonfunc v :: l) = funcIds l := rfl

theorem funcIds_append (l1 l2 : List Entry) :
    funcIds (l1 ++ l2) = funcIds l1 ++ funcIds l2 := by
  simp [funcIds, List.filterMap_append]

/-- When no callable entry of the list throws, the fan-out loop invokes
exactly the callable entries, in order, and no exception escapes. -/
theorem runCallbacks_noThrow (throws : Nat → Bool) (l : List Entry)
    (h : ∀ id ∈ funcIds l, throws id = false) :
    runCallbacks throws l = (funcIds l, false) := by
  induction l with
  | nil => rfl
  | cons e rest ih =>
    cases e with
    | func id =>
      have hid : throws id = false := h id (by simp [funcIds_cons_func])
      have hrest := ih fun j hj => h j (by simp [funcIds_cons_func, hj])
      simp [runCallbacks, hid, hrest, funcIds_cons_func]
    | nonfunc v =>
      have hrest := ih fun j hj => h j (by simp [funcIds_cons_nonfunc, hj])
      simp [runCallbacks, hrest, funcIds_cons_nonfunc]

/-! ### Helper lemmas about the registry -/

theorem lookupT_addSub (q t : String) (e : Entry) (l : List (String × List Entry)) :
    lookupT q (addSub t e l)
      = if q = t then (lookupT t l).map (fun v => v ++ [e]) else lookupT q l := by
  induction l with
  | nil => by_cases h : q = t <;> simp [addSub, lookupT, h]
  | cons p rest ih =>
    obtain ⟨k, v⟩ := p
    by_cases hkt : k = t
    · subst hkt
      by_cases hqk : q = k
      · subst hqk
        simp [addSub, lookupT]
      · have hkq : ¬ k = q := fun h => hqk h.symm
        simp [addSub, lookupT, hqk, hkq]
    · by_cases hkq : k = q
      · subst hkq
        simp [addSub, lookupT, hkt]
      · simp [addSub, lookupT, hkt, hkq, ih]

theorem lookupT_append_of_none (q : String) (l1 l2 : List (String × List Entry))
    (h : lookupT q l1 = none) :
    lookupT q (l1 ++ l2) = lookupT q l2 := by
  induction l1 with
  | nil => simp
  | cons p rest ih =>
    obtain ⟨k, v⟩ := p
    by_cases hkq : k = q
    · simp [lookupT, hkq] at h
    · simp [lookupT, hkq] at h ⊢
      exact ih h

theorem lookupT_append_of_some (q : String) (l1 l2 : List (String × List Entry))
    (v : List Entry) (h : lookupT q l1 = some v) :
    lookupT q (l1 ++ l2) = some v := by
  induction l1 with
  | nil => simp [lookupT] at h
  | cons p rest ih =>
    obtain ⟨k, w⟩ := p
    by_cases hkq : k = q
    · simp [lookupT, hkq] at h ⊢
      exact h
    · simp [lookupT, hkq] at h ⊢
      exact ih h

theorem lookupT_singleton (q t : String) (v : List Entry) :
    lookupT q [(t, v)] = if t = q then some v else none := by
  simp [lookupT]

theorem addSub_eq_nil_iff (t : String) (e : Entry) (l : List (String × List Entry)) :
    addSub t e l = [] ↔ l = [] := by
  cases l with
  | nil => simp [addSub]
  | cons p rest =>
    obtain ⟨k, v⟩ := p
    by_cases h : k = t <;> simp [addSub, h]

/-! ### Helper lemmas about addListener -/

theorem addListener_of_some (s : ModelState) (t : String) (cb : Entry)
    (v : List Entry) (h : lookupT t s.subscribers = some v) :
    addListener s t cb = ({ s with subscribers := addSub t cb s.subscribers }, []) := by
  simp only [addListener, h]

theorem addListener_of_none (s : ModelState) (t : String) (cb : Entry)
    (h : lookupT t s.subscribers = none) :
    addListener s t cb =
      (⟨s.subscribers ++ [(t, [cb])],
        s.outstream_socket || decide (t = outstream_topic),
        true⟩,
       (if t = outstream_topic ∧ s.outstream_socket = false then [OpenEvent.outstream] else [])
         ++ (if s.publisher_socket = false then [OpenEvent.pubstream] else [])) := by
  simp only [addListener, h]
  cases hos : s.outstream_socket <;> cases hps : s.publisher_socket <;>
    by_cases ht : t = outstream_topic <;>
      simp [hos, hps, ht]

/-- After `addListener`, the list stored under the registered topic is the
old list (empty when the topic was new) with the callback appended. -/
theorem addListener_lookup_self (s : ModelState) (t : String) (cb : Entry) :
    lookupT t ((addListener s t cb).1).subscribers
      = some ((lookupT t s.subscribers).getD [] ++ [cb]) := by
  cases h : lookupT t s.subscribers with
  | some v =>
    rw [addListener_of_some s t cb v h]
    simp [lookupT_addSub, h]
  | none =>
    rw [addListener_of_none s t cb h]
    simp only [h, Option.getD_none, List.nil_append]
    rw [lookupT_append_of_none t _ _ h, lookupT_singleton]
    simp

/-- `addListener` leaves the list of every other topic untouched. -/
theorem addListener_lookup_other (s : ModelState) (t : String) (cb : Entry)
    (q : String) (hq : q ≠ t) :
    lookupT q ((addListener s t cb).1).subscribers = lookupT q s.subscribers := by
  cases h : lookupT t s.subscribers with
  | some v =>
    rw [addListener_of_some s t cb v h]
    simp [lookupT_addSub, hq]
  | none =>
    rw [addListener_of_none s t cb h]
    cases hq2 : lookupT q s.subscribers with
    | some w => exact lookupT_append_of_some q _ _ w hq2
    | none =>
      rw [lookupT_append_of_none q _ _ hq2, lookupT_singleton]
      have htq : ¬ t = q := fun hh => hq (Eq.symm hh)
      simp [htq]

theorem addListener_outFlag_mono (s : ModelState) (t : String) (cb : Entry)
    (h : s.outstream_socket = true) :
    ((addListener s t cb).1).outstream_socket = true := by
  cases hl : lookupT t s.subscribers with
  | some v => rw [addListener_of_some s t cb v hl]; exact h
  | none => rw [addListener_of_none s t cb hl]; simp [h]

theorem addListener_pubFlag_mono (s : ModelState) (t : String) (cb : Entry)
    (h : s.publisher_socket = true) :
    ((addListener s t cb).1).publisher_socket = true := by
  cases hl : lookupT t s.subscribers with
  | some v => rw [addListener_of_some s t cb v hl]; exact h
  | none => rw [addListener_of_none s t cb hl]

theorem addListener_outFlag_set (s : ModelState) (t : String) (cb : Entry)
    (hl : lookupT t s.subscribers = none) (ht : t = outstream_topic) :
    ((addListener s t cb).1).outstream_socket = true := by
  rw [addListener_of_none s t cb hl]
  simp [ht]

theorem addListener_pubFlag_set (s : ModelState) (t : String) (cb : Entry)
    (hl : lookupT t s.subscribers = none) :
    ((addListener s t cb).1).publisher_socket = true := by
  rw [addListener_of_none s t cb hl]

/-- The outstream channel-open request is issued by `addListener` exactly
when the topic is new, equals the output topic, and the outstream flag was
still unset. -/
theorem addListener_count_outstream (s : ModelState) (t : String) (cb : Entry) :
    ((addListener s t cb).2).count OpenEvent.outstream
      = if lookupT t s.subscribers = none ∧ t = outstream_topic ∧ s.outstream_socket = false
        then 1 else 0 := by
  cases hl : lookupT t s.subscribers with
  | some v =>
    rw [addListener_of_some s t cb v hl]
    simp
  | none =>
    rw [addListener_of_none s t cb hl]
    by_cases h1 : t = outstream_topic ∧ s.outstream_socket = false <;>
      by_cases h2 : s.publisher_socket = false <;>
        simp [h1, h2, List.count_append]

/-- The publisher channel-open request is issued by `addListener` exactly
when the topic is new and the publisher flag was still unset. -/
theorem addListener_count_pubstream (s : ModelState) (t : String) (cb : Entry) :
    ((addListener s t cb).2).count OpenEvent.pubstream
      = if lookupT t s.subscribers = none ∧ s.publisher_socket = false
        then 1 else 0 := by
  cases hl : lookupT t s.subscribers with
  | some v =>
    rw [addListener_of_some s t cb v hl]
    simp
  | none =>
    rw [addListener_of_none s t cb hl]
    by_cases h1 : t = outstream_topic ∧ s.outstream_socket = false <;>
      by_cases h2 : s.publisher_socket = false <;>
        simp [h1, h2, List.count_append]

/-! ### Helper lemmas about runs -/

theorem run_append (s : ModelState) (l1 l2 : List Op) :
    run s (l1 ++ l2)
      = ((run (run s l1).1 l2).1, (run s l1).2 ++ (run (run s l1).1 l2).2) := by
  induction l1 generalizing s with
  | nil => simp [run]
  | cons op rest ih => simp [run, ih, List.append_assoc]

theorem run_no_add (s : ModelState) (ops : List Op)
    (h : ∀ op ∈ ops, isAdd op = false) : run s ops = (s, []) := by
  induction ops with
  | nil => rfl
  | cons op rest ih =>
    cases op with
    | add t cb =>
      have := h _ (List.mem_cons_self _ _)
      simp [isAdd] at this
    | update =>
      simp [run, step, ih fun o ho => h o (List.mem_cons_of_mem _ ho)]
    | outMsg d =>
      simp [run, step, ih fun o ho => h o (List.mem_cons_of_mem _ ho)]
    | pubMsg a b =>
      simp [run, step, ih fun o ho => h o (List.mem_cons_of_mem _ ho)]

theorem run_outFlag_mono (s : ModelState) (ops : List Op)
    (h : s.outstream_socket = true) :
    ((run s ops).1).outstream_socket = true := by
  induction ops generalizing s with
  | nil => exact h
  | cons op rest ih =>
    cases op with
    | add t cb => exact ih _ (addListener_outFlag_mono s t cb h)
    | update => exact ih _ h
    | outMsg d => exact ih _ h
    | pubMsg a b => exact ih _ h

theorem run_pubFlag_mono (s : ModelState) (ops : List Op)
    (h : s.publisher_socket = true) :
    ((run s ops).1).publisher_socket = true := by
  induction ops generalizing s with
  | nil => exact h
  | cons op rest ih =>
    cases op with
    | add t cb => exact ih _ (addListener_pubFlag_mono s t cb h)
    | update => exact ih _ h
    | outMsg d => exact ih _ h
    | pubMsg a b => exact ih _ h

/-- Once the outstream flag is set, no further outstream open request is
ever issued. -/
theorem run_count_outstream_zero (s : ModelState) (ops : List Op)
    (h : s.outstream_socket = true) :
    ((run s ops).2).count OpenEvent.outstream = 0 := by
  induction ops generalizing s with
  | nil => rfl
  | cons op rest ih =>
    cases op with
    | add t cb =>
      have hstep : ((addListener s t cb).2).count OpenEvent.outstream = 0 := by
        rw [addListener_count_outstream]
        simp [h]
      simp [run, step, List.count_append, hstep,
        ih _ (addListener_outFlag_mono s t cb h)]
    | update => simp [run, step, ih _ h]
    | outMsg d => simp [run, step, ih _ h]
    | pubMsg a b => simp [run, step, ih _ h]

/-- Once the publisher flag is set, no further publisher open request is
ever issued. -/
theorem run_count_pubstream_zero (s : ModelState) (ops : List Op)
    (h : s.publisher_socket = true) :
    ((run s ops).2).count OpenEvent.pubstream = 0 := by
  induction ops generalizing s with
  | nil => rfl
  | cons op rest ih =>
    cases op with
    | add t cb =>
      have hstep : ((addListener s t cb).2).count OpenEvent.pubstream = 0 := by
        rw [addListener_count_pubstream]
        simp [h]
      simp [run, step, List.count_append, hstep,
        ih _ (addListener_pubFlag_mono s t cb h)]
    | update => simp [run, step, ih _ h]
    | outMsg d => simp [run, step, ih _ h]
    | pubMsg a b => simp [run, step, ih _ h]

/-- A run containing no registration under `outstream_topic` never issues an
outstream open request. -/
theorem run_count_outstream_zero_of_no_addT (s : ModelState) (ops : List Op)
    (h : ∀ op ∈ ops, isAddOf outstream_topic op = false) :
    ((run s ops).2).count OpenEvent.outstream = 0 := by
  induction ops generalizing s with
  | nil => rfl
  | cons op rest ih =>
    cases op with
    | add t cb =>
      have ht : ¬ t = outstream_topic := by
        have := h _ (List.mem_cons_self _ _)
        simpa [isAddOf] using this
      have hstep : ((addListener s t cb).2).count OpenEvent.outstream = 0 := by
        rw [addListener_count_outstream]
        simp [ht]
      simp [run, step, List.count_append, hstep,
        ih _ fun o ho => h o (List.mem_cons_of_mem _ ho)]
    | update => simp [run, step, ih _ fun o ho => h o (List.mem_cons_of_mem _ ho)]
    | outMsg d => simp [run, step, ih _ fun o ho => h o (List.mem_cons_of_mem _ ho)]
    | pubMsg a b => simp [run, step, ih _ fun o ho => h o (List.mem_cons_of_mem _ ho)]

/-- A run containing no registration under topic `T` leaves the `T` registry
entry untouched. -/
theorem run_lookup_no_addT (T : String) (s : ModelState) (ops : List Op)
    (h : ∀ op ∈ ops, isAddOf T op = false) :
    lookupT T ((run s ops).1).subscribers = lookupT T s.subscribers := by
  induction ops generalizing s with
  | nil => rfl
  | cons op rest ih =>
    cases op with
    | add t cb =>
      have ht : ¬ t = T := by
        have := h _ (List.mem_cons_self _ _)
        simpa [isAddOf] using this
      have hstep := addListener_lookup_other s t cb T fun hh => ht hh.symm
      simp only [run, step]
      rw [ih _ fun o ho => h o (List.mem_cons_of_mem _ ho), hstep]
    | update => simpa [run, step] using ih _ fun o ho => h o (List.mem_cons_of_mem _ ho)
    | outMsg d => simpa [run, step] using ih _ fun o ho => h o (List.mem_cons_of_mem _ ho)
    | pubMsg a b => simpa [run, step] using ih _ fun o ho => h o (List.mem_cons_of_mem _ ho)

/-! ### The flag/registry invariant -/

theorem flagsInv_init : FlagsInv initState := by
  simp [FlagsInv, initState, lookupT]

theorem flagsInv_addListener (s : ModelState) (t : String) (cb : Entry)
    (h : FlagsInv s) : FlagsInv (addListener s t cb).1 := by
  obtain ⟨h1, h2⟩ := h
  cases hl : lookupT t s.subscribers with
  | some v =>
    rw [addListener_of_some s t cb v hl]
    refine ⟨?_, ?_⟩
    · show s.outstream_socket = true
        ↔ (lookupT outstream_topic (addSub t cb s.subscribers)).isSome = true
      rw [lookupT_addSub]
      by_cases hot : outstream_topic = t
      · have h1x : s.outstream_socket = true := by
          rw [hot] at h1
          simpa [hl] using h1
        simp [if_pos hot, hl, h1x]
      · rw [if_neg hot]
        exact h1
    · show s.publisher_socket = true ↔ addSub t cb s.subscribers ≠ []
      simpa [addSub_eq_nil_iff] using h2
  | none =>
    rw [addListener_of_none s t cb hl]
    refine ⟨?_, ?_⟩
    · show (s.outstream_socket || decide (t = outstream_topic)) = true
        ↔ (lookupT outstream_topic (s.subscribers ++ [(t, [cb])])).isSome = true
      by_cases hot : t = outstream_topic
      · have hl2 : lookupT outstream_topic s.subscribers = none := by
          rw [← hot]
          exact hl
        rw [lookupT_append_of_none _ _ _ hl2, lookupT_singleton]
        simp [hot]
      · cases hq : lookupT outstream_topic s.subscribers with
        | some w =>
          have h1x : s.outstream_socket = true := by
            simpa [hq] using h1
          rw [lookupT_append_of_some _ _ _ w hq]
          simp [hot, h1x]
        | none =>
          have h1x : s.outstream_socket = false := by
            have := h1
            rw [hq] at this
            simpa using this
          rw [lookupT_append_of_none _ _ _ hq, lookupT_singleton]
          simp [hot, h1x]
    · show true = true ↔ s.subscribers ++ [(t, [cb])] ≠ []
      simp

theorem flagsInv_step (s : ModelState) (op : Op) (h : FlagsInv s) :
    FlagsInv (step s op).1 := by
  cases op with
  | add t cb => exact flagsInv_addListener s t cb h
  | update => exact h
  | outMsg d => exact h
  | pubMsg a b => exact h

theorem flagsInv_run (s : ModelState) (ops : List Op) (h : FlagsInv s) :
    FlagsInv (run s ops).1 := by
  induction ops generalizing s with
  | nil => exact h
  | cons op rest ih => exact ih _ (flagsInv_step s op h)

/-! ### Claim theorems -/

/-- C2: for every topic list in which callbacks `a` and `b` were registered
in that order (arbitrary other entries around them, duplicates permitted),
a fan-out — the loop shared by `handle_output`, `handle_message` and
`updateListeners` — invokes the callable entries in exactly registration
order, so `a` is invoked before `b`, and each registered callable occurrence
is invoked exactly once (assuming, as the loop has no try/catch, that no
invoked callback throws). -/
theorem fanout_order_and_once (throws : Nat → Bool) (l1 l2 l3 : List Entry) (a b : Nat)
    (hth : ∀ id ∈ funcIds (l1 ++ Entry.func a :: (l2 ++ Entry.func b :: l3)),
      throws id = false) :
    (runCallbacks throws (l1 ++ Entry.func a :: (l2 ++ Entry.func b :: l3))).1
      = funcIds l1 ++ a :: (funcIds l2 ++ b :: funcIds l3)
    ∧ ∀ c : Nat,
        ((runCallbacks throws (l1 ++ Entry.func a :: (l2 ++ Entry.func b :: l3))).1).count c
          = (funcIds (l1 ++ Entry.func a :: (l2 ++ Entry.func b :: l3))).count c := by
  have h := runCallbacks_noThrow throws _ hth
  refine ⟨?_, ?_⟩
  · rw [h]
    simp [funcIds_append, funcIds_cons_func]
  · intro c
    rw [h]

/-- C2 witness. -/
theorem fanout_order_and_once_witness :
    (∀ id ∈ funcIds ([Entry.nonfunc 5] ++ Entry.func 1 :: ([] ++ Entry.func 2 :: [])),
      (fun _ => false : Nat → Bool) id = false)
    ∧ ((runCallbacks (fun _ => false)
          ([Entry.nonfunc 5] ++ Entry.func 1 :: ([] ++ Entry.func 2 :: []))).1
        = funcIds [Entry.nonfunc 5] ++ 1 :: (funcIds [] ++ 2 :: funcIds [])
      ∧ ∀ c : Nat,
          ((runCallbacks (fun _ => false)
              ([Entry.nonfunc 5] ++ Entry.func 1 :: ([] ++ Entry.func 2 :: []))).1).count c
            = (funcIds ([Entry.nonfunc 5] ++ Entry.func 1 :: ([] ++ Entry.func 2 :: []))).count c) :=
  ⟨by decide, fanout_order_and_once (fun _ => false) [Entry.nonfunc 5] [] [] 1 2 (by decide)⟩

/-- C3 counterexample: the fan-out loops contain no try/catch, so an
exception thrown by one callback is NOT isolated.  In this concrete
`updateListeners` fan-out, callback 0 (registered first under topic `"t"`)
throws; callback 1, registered after it under the same topic, is never
invoked, and the exception escapes the loop. -/
theorem fanout_not_isolated_cex :
    (updateListeners (fun id => id == 0)
        { subscribers := [("t", [Entry.func 0, Entry.func 1])],
          outstream_socket := false, publisher_socket := true }).1
      = [⟨"t", 0, none⟩]
    ∧ (⟨"t", 1, none⟩ : Invocation) ∉
        (updateListeners (fun id => id == 0)
          { subscribers := [("t", [Entry.func 0, Entry.func 1])],
            outstream_socket := false, publisher_socket := true }).1
    ∧ (updateListeners (fun id => id == 0)
        { subscribers := [("t", [Entry.func 0, Entry.func 1])],
          outstream_socket := false, publisher_socket := true }).2 = true := by
  decide

/-- C3 amended: an exception from a callback is not isolated.  In any
fan-out list, if the callable entries before `c` do not throw and `c`
throws, the loop invokes exactly the callables up to and including `c`, the
exception escapes, and (whatever `l2` holds) no entry after `c` is ever
invoked. -/
theorem fanout_throw_aborts (throws : Nat → Bool) (l1 l2 : List Entry) (c : Nat)
    (hc : throws c = true) (h1 : ∀ id ∈ funcIds l1, throws id = false) :
    runCallbacks throws (l1 ++ Entry.func c :: l2) = (funcIds l1 ++ [c], true) := by
  induction l1 with
  | nil => simp [runCallbacks, hc, funcIds_nil]
  | cons e rest ih =>
    cases e with
    | func id =>
      have hid : throws id = false := h1 id (by simp [funcIds_cons_func])
      have hrest := ih fun j hj => h1 j (by simp [funcIds_cons_func, hj])
      simp [runCallbacks, hid, hrest, funcIds_cons_func]
    | nonfunc w =>
      have hrest := ih fun j hj => h1 j (by simp [funcIds_cons_nonfunc, hj])
      simp [runCallbacks, hrest, funcIds_cons_nonfunc]

/-- C3 amended witness. -/
theorem fanout_throw_aborts_witness :
    ((fun id => id == 0 : Nat → Bool) 0 = true
      ∧ ∀ id ∈ funcIds [Entry.func 2], (fun id => id == 0 : Nat → Bool) id = false)
    ∧ runCallbacks (fun id => id == 0) ([Entry.func 2] ++ Entry.func 0 :: [Entry.func 3])
        = (funcIds [Entry.func 2] ++ [0], true) :=
  ⟨⟨by decide, by decide⟩,
    fanout_throw_aborts (fun id => id == 0) [Entry.func 2] [Entry.func 3] 0
      (by decide) (by decide)⟩

/-- C7: a non-callable entry in a subscriber list is skipped by the fan-out
loop (the `typeof callbacks[i] === "function"` guard routes it to the
logging branch): it contributes no invocation, causes no exception, and
every callable entry of the same list is still invoked, in order. -/
theorem fanout_skips_noncallable (throws : Nat → Bool) (l1 l2 : List Entry) (v : Nat)
    (hth : ∀ id ∈ funcIds (l1 ++ l2), throws id = false) :
    runCallbacks throws (l1 ++ Entry.nonfunc v :: l2) = (funcIds l1 ++ funcIds l2, false) := by
  have hth2 : ∀ id ∈ funcIds (l1 ++ Entry.nonfunc v :: l2), throws id = false := by
    intro id hid
    apply hth
    simpa [funcIds_append, funcIds_cons_nonfunc] using hid
  rw [runCallbacks_noThrow throws _ hth2]
  simp [funcIds_append, funcIds_cons_nonfunc]

/-- C7 witness. -/
theorem fanout_skips_noncallable_witness :
    (∀ id ∈ funcIds ([Entry.func 1] ++ [Entry.func 2]),
      (fun _ => false : Nat → Bool) id = false)
    ∧ runCallbacks (fun _ => false) ([Entry.func 1] ++ Entry.nonfunc 9 :: [Entry.func 2])
        = (funcIds [Entry.func 1] ++ funcIds [Entry.func 2], false) :=
  ⟨by decide, fanout_skips_noncallable (fun _ => false) [Entry.func 1] [Entry.func 2] 9 (by decide)⟩

/-- C8: in an execution that never calls `addListener`, no directory lookup
(channel open) is ever issued: channel opening is reachable only through
the first-registration paths of `addListener`. -/
theorem no_registration_no_open (ops : List Op)
    (h : ∀ op ∈ ops, isAdd op = false) :
    (run initState ops).2 = [] := by
  rw [run_no_add initState ops h]

/-- C8 witness. -/
theorem no_registration_no_open_witness :
    (∀ op ∈ [Op.update, Op.outMsg "x", Op.pubMsg "foo" ["y"]], isAdd op = false)
    ∧ (run initState [Op.update, Op.outMsg "x", Op.pubMsg "foo" ["y"]]).2 = [] :=
  ⟨by decide, no_registration_no_open [Op.update, Op.outMsg "x", Op.pubMsg "foo" ["y"]] (by decide)⟩

/-- C10: `addListener` appends any value — callable or not — to the topic
list unconditionally (creating the list when the topic is new); no
validation of the callback happens at registration time, and the model
function is total, matching the unconditional push/create with no
throw path. -/
theorem addListener_appends_unconditionally (s : ModelState) (topic : String) (e : Entry) :
    lookupT topic ((addListener s topic e).1).subscribers
      = some ((lookupT topic s.subscribers).getD [] ++ [e]) :=
  addListener_lookup_self s topic e

/-- C1: a publisher message with raw topic `S` is routed under the rewritten
topic `"prob." ++ S`: the handler delivers the envelope, with its topic
element rewritten, to exactly the callable entries registered under
`"prob." ++ S` (in order), every delivered invocation carries the rewritten
topic, and since `"prob." ++ S ≠ S` no invocation is drawn from the list
registered under the raw topic `S`. -/
theorem publisher_rewrite_routing (throws : Nat → Bool) (s : ModelState)
    (S : String) (fields : List String)
    (hth : ∀ id ∈ funcIds ((lookupT ("prob." ++ S) s.subscribers).getD []),
      throws id = false) :
    (handle_message throws s S fields).1
      = (funcIds ((lookupT ("prob." ++ S) s.subscribers).getD [])).map
          (fun id => ⟨"prob." ++ S, id, some (Payload.envelope ("prob." ++ S) fields)⟩)
    ∧ (∀ inv ∈ (handle_message throws s S fields).1, inv.topic = "prob." ++ S)
    ∧ "prob." ++ S ≠ S := by
  have hne : "prob." ++ S ≠ S := by
    intro hcontra
    have hlen := congrArg String.length hcontra
    rw [String.length_append] at hlen
    rw [show ("prob." : String).length = 5 from rfl] at hlen
    omega
  cases hl : lookupT ("prob." ++ S) s.subscribers with
  | none =>
    refine ⟨?_, ?_, hne⟩
    · simp [handle_message, hl, funcIds_nil]
    · intro inv hinv
      simp [handle_message, hl] at hinv
  | some l =>
    have hthl : ∀ id ∈ funcIds l, throws id = false := by
      simpa [hl] using hth
    refine ⟨?_, ?_, hne⟩
    · simp [handle_message, hl, runCallbacks_noThrow throws l hthl]
    · intro inv hinv
      simp only [handle_message, hl, runCallbacks_noThrow throws l hthl,
        List.mem_map] at hinv
      obtain ⟨id, hid, rfl⟩ := hinv
      rfl

/-- C1 witness. -/
theorem publisher_rewrite_routing_witness :
    (∀ id ∈ funcIds ((lookupT ("prob." ++ "foo")
        ({ subscribers := [("prob.foo", [Entry.func 0]), ("foo", [Entry.func 1])],
           outstream_socket := false, publisher_socket := true } : ModelState).subscribers).getD []),
      (fun _ => false : Nat → Bool) id = false)
    ∧ ((handle_message (fun _ => false)
          { subscribers := [("prob.foo", [Entry.func 0]), ("foo", [Entry.func 1])],
            outstream_socket := false, publisher_socket := true } "foo" ["x"]).1
        = (funcIds ((lookupT ("prob." ++ "foo")
              ({ subscribers := [("prob.foo", [Entry.func 0]), ("foo", [Entry.func 1])],
                 outstream_socket := false, publisher_socket := true } : ModelState).subscribers).getD [])).map
            (fun id => ⟨"prob." ++ "foo", id, some (Payload.envelope ("prob." ++ "foo") ["x"])⟩)
      ∧ (∀ inv ∈ (handle_message (fun _ => false)
            { subscribers := [("prob.foo", [Entry.func 0]), ("foo", [Entry.func 1])],
              outstream_socket := false, publisher_socket := true } "foo" ["x"]).1,
          inv.topic = "prob." ++ "foo")
      ∧ "prob." ++ "foo" ≠ "foo") :=
  ⟨by decide,
    publisher_rewrite_routing (fun _ => false)
      { subscribers := [("prob.foo", [Entry.func 0]), ("foo", [Entry.func 1])],
        outstream_socket := false, publisher_socket := true } "foo" ["x"] (by decide)⟩

/-- Helper for C6: when no callable entry of a non-output topic throws, the
`updateListeners` loop fans out exactly the callable entries of every
non-output topic, in registry order, each with no argument. -/
theorem updateLoop_noThrow (throws : Nat → Bool) (L : List (String × List Entry))
    (h : ∀ p ∈ L, p.1 ≠ outstream_topic → ∀ id ∈ funcIds p.2, throws id = false) :
    updateLoop throws L
      = ((L.filter fun p => p.1 != outstream_topic).flatMap
          fun p => (funcIds p.2).map fun id => Invocation.mk p.1 id none, false) := by
  induction L with
  | nil => simp [updateLoop]
  | cons p rest ih =>
    obtain ⟨t, l⟩ := p
    by_cases ht : t = outstream_topic
    · have ih2 := ih fun q hq => h q (List.mem_cons_of_mem _ hq)
      simp [updateLoop, ht, ih2]
    · have hl := h (t, l) (List.mem_cons_self _ _) ht
      have ih2 := ih fun q hq => h q (List.mem_cons_of_mem _ hq)
      simp [updateLoop, ht, runCallbacks_noThrow throws l hl, ih2]

/-- C6: `updateListeners` fans out, with no argument, every callable entry
of every topic currently in the registry except the output topic, and no
invocation it performs is drawn from the output-topic list (assuming no
invoked callback throws). -/
theorem updateListeners_skips_outstream (throws : Nat → Bool) (s : ModelState)
    (hth : ∀ p ∈ s.subscribers, p.1 ≠ outstream_topic →
      ∀ id ∈ funcIds p.2, throws id = false) :
    (updateListeners throws s).1
      = (s.subscribers.filter fun p => p.1 != outstream_topic).flatMap
          (fun p => (funcIds p.2).map fun id => Invocation.mk p.1 id none)
    ∧ ∀ inv ∈ (updateListeners throws s).1,
        inv.topic ≠ outstream_topic ∧ inv.payload = none := by
  have h := updateLoop_noThrow throws s.subscribers hth
  refine ⟨?_, ?_⟩
  · show (updateLoop throws s.subscribers).1 = _
    rw [h]
  · intro inv hinv
    have hinv2 : inv ∈ (updateLoop throws s.subscribers).1 := hinv
    rw [h] at hinv2
    simp only [List.mem_flatMap, List.mem_filter, List.mem_map] at hinv2
    obtain ⟨p, ⟨hpmem, hpne⟩, id, hidmem, rfl⟩ := hinv2
    refine ⟨?_, rfl⟩
    simpa using hpne

/-- C6 witness. -/
theorem updateListeners_skips_outstream_witness :
    (∀ p ∈ ({ subscribers := [(outstream_topic, [Entry.func 9]),
                ("a", [Entry.func 1, Entry.nonfunc 3]), ("b", [Entry.func 2])],
              outstream_socket := true, publisher_socket := true } : ModelState).subscribers,
      p.1 ≠ outstream_topic → ∀ id ∈ funcIds p.2, (fun _ => false : Nat → Bool) id = false)
    ∧ ((updateListeners (fun _ => false)
          { subscribers := [(outstream_topic, [Entry.func 9]),
              ("a", [Entry.func 1, Entry.nonfunc 3]), ("b", [Entry.func 2])],
            outstream_socket := true, publisher_socket := true }).1
        = (({ subscribers := [(outstream_topic, [Entry.func 9]),
                ("a", [Entry.func 1, Entry.nonfunc 3]), ("b", [Entry.func 2])],
              outstream_socket := true, publisher_socket := true } : ModelState).subscribers.filter
              fun p => p.1 != outstream_topic).flatMap
            (fun p => (funcIds p.2).map fun id => Invocation.mk p.1 id none)
      ∧ ∀ inv ∈ (updateListeners (fun _ => false)
            { subscribers := [(outstream_topic, [Entry.func 9]),
                ("a", [Entry.func 1, Entry.nonfunc 3]), ("b", [Entry.func 2])],
              outstream_socket := true, publisher_socket := true }).1,
          inv.topic ≠ outstream_topic ∧ inv.payload = none) :=
  ⟨by decide,
    updateListeners_skips_outstream (fun _ => false)
      { subscribers := [(outstream_topic, [Entry.func 9]),
          ("a", [Entry.func 1, Entry.nonfunc 3]), ("b", [Entry.func 2])],
        outstream_socket := true, publisher_socket := true } (by decide)⟩

/-- C4: over any sequence of calls in which `pre` contains no registration
under the output topic, no outstream channel open is issued during `pre`;
the first registration under the output topic issues it exactly once; and
over the whole run — whatever further registrations `post` makes, under the
output topic or any other — the outstream open is issued exactly once in
total. -/
theorem outstream_open_exactly_once (pre post : List Op) (cb : Entry)
    (hpre : ∀ op ∈ pre, isAddOf outstream_topic op = false) :
    ((run initState pre).2).count OpenEvent.outstream = 0
    ∧ ((step (run initState pre).1 (Op.add outstream_topic cb)).2).count OpenEvent.outstream = 1
    ∧ ((run initState (pre ++ Op.add outstream_topic cb :: post)).2).count OpenEvent.outstream
        = 1 := by
  have hlook : lookupT outstream_topic ((run initState pre).1).subscribers = none := by
    rw [run_lookup_no_addT outstream_topic initState pre hpre]
    rfl
  have hflag : ((run initState pre).1).outstream_socket = false := by
    obtain ⟨h1, _⟩ := flagsInv_run initState pre flagsInv_init
    rw [hlook] at h1
    simpa using h1
  have hstepA :
      ((addListener (run initState pre).1 outstream_topic cb).2).count OpenEvent.outstream = 1 := by
    rw [addListener_count_outstream]
    simp [hlook, hflag]
  have hpre0 : ((run initState pre).2).count OpenEvent.outstream = 0 :=
    run_count_outstream_zero_of_no_addT initState pre hpre
  have hflag2 :
      ((addListener (run initState pre).1 outstream_topic cb).1).outstream_socket = true :=
    addListener_outFlag_set _ _ _ hlook rfl
  have hpost0 := run_count_outstream_zero _ post hflag2
  refine ⟨hpre0, by simpa [step] using hstepA, ?_⟩
  rw [run_append, List.count_append, hpre0]
  simp [run, step, List.count_append, hstepA, hpost0]

/-- C4 witness. -/
theorem outstream_open_exactly_once_witness :
    (∀ op ∈ [Op.update], isAddOf outstream_topic op = false)
    ∧ (((run initState [Op.update]).2).count OpenEvent.outstream = 0
      ∧ ((step (run initState [Op.update]).1
            (Op.add outstream_topic (Entry.func 0))).2).count OpenEvent.outstream = 1
      ∧ ((run initState ([Op.update] ++ Op.add outstream_topic (Entry.func 0) ::
            [Op.add outstream_topic (Entry.func 1),
             Op.add "other" (Entry.func 2)])).2).count OpenEvent.outstream = 1) :=
  ⟨by decide,
    outstream_open_exactly_once [Op.update]
      [Op.add outstream_topic (Entry.func 1), Op.add "other" (Entry.func 2)]
      (Entry.func 0) (by decide)⟩

/-- C5: over any sequence of calls in which `pre` contains no registration
at all, no publisher channel open is issued during `pre`; the first
registration — under any topic `t` whatsoever — issues it exactly once; and
over the whole run, whatever further registrations `post` makes (in
particular the first registration of a second distinct topic), the
publisher open is issued exactly once in total. -/
theorem publisher_open_exactly_once (pre post : List Op) (t : String) (cb : Entry)
    (hpre : ∀ op ∈ pre, isAdd op = false) :
    ((run initState pre).2).count OpenEvent.pubstream = 0
    ∧ ((step (run initState pre).1 (Op.add t cb)).2).count OpenEvent.pubstream = 1
    ∧ ((run initState (pre ++ Op.add t cb :: post)).2).count OpenEvent.pubstream = 1 := by
  have hrun : run initState pre = (initState, []) := run_no_add initState pre hpre
  have hstepA : ((addListener initState t cb).2).count OpenEvent.pubstream = 1 := by
    rw [addListener_count_pubstream]
    simp [initState, lookupT]
  have hflag2 : ((addListener initState t cb).1).publisher_socket = true :=
    addListener_pubFlag_set _ _ _ rfl
  have hpost0 := run_count_pubstream_zero _ post hflag2
  refine ⟨by simp [hrun], ?_, ?_⟩
  · rw [hrun]
    simpa [step] using hstepA
  · rw [run_append, hrun]
    simp [run, step, List.count_append, hstepA, hpost0]

/-- C5 witness: the first registration (topic `"a"`) opens the publisher
channel; the later first registration of the distinct topic `"b"` does not
reopen it. -/
theorem publisher_open_exactly_once_witness :
    (∀ op ∈ [Op.update], isAdd op = false)
    ∧ (((run initState [Op.update]).2).count OpenEvent.pubstream = 0
      ∧ ((step (run initState [Op.update]).1
            (Op.add "a" (Entry.func 0))).2).count OpenEvent.pubstream = 1
      ∧ ((run initState ([Op.update] ++ Op.add "a" (Entry.func 0) ::
            [Op.add "b" (Entry.func 1)])).2).count OpenEvent.pubstream = 1) :=
  ⟨by decide,
    publisher_open_exactly_once [Op.update] [Op.add "b" (Entry.func 1)] "a"
      (Entry.func 0) (by decide)⟩

/-- C9: in every reachable state in which the outstream-established flag is
set, the registry holds a list for the output topic (`addListener` inserts
the list before setting the flag), so the unguarded outstream-handler
`subscribers[topic]` lookup never faults on a missing entry. -/
theorem outstream_handler_never_faults (ops : List Op) (throws : Nat → Bool) (data : String)
    (h : ((run initState ops).1).outstream_socket = true) :
    (handle_output throws (run initState ops).1 data).isSome = true := by
  obtain ⟨h1, _⟩ := flagsInv_run initState ops flagsInv_init
  have hsome := h1.mp h
  obtain ⟨l, hl⟩ := Option.isSome_iff_exists.mp hsome
  simp [handle_output, hl]

/-- C9 witness. -/
theorem outstream_handler_never_faults_witness :
    ((run initState [Op.add outstream_topic (Entry.func 0)]).1).outstream_socket = true
    ∧ (handle_output (fun _ => false)
        (run initState [Op.add outstream_topic (Entry.func 0)]).1 "d").isSome = true :=
  ⟨by decide,
    outstream_handler_never_faults [Op.add outstream_topic (Entry.func 0)]
      (fun _ => false) "d" (by decide)⟩

end ModelJS
